/- Formal model of tts.py (TTS-Generator repository).

The Python source is shallowly embedded: pure computations become Lean
functions, the filesystem and the remote TTS service become explicit
parameters, and float arithmetic on sleep durations is modelled over ℚ.
Line references point into src/tts.py. -/
import Mathlib

namespace TTSModel

variable {α : Type}

/-- Fields of a gTTSError as observed by the retry loop (tts.py lines 249-266):
`rspOk` models `response_error.rsp.ok`; `urlFound` models that the formatted
traceback contains an https URL, i.e. that the extracted `requests_url` string
is nonempty (lines 252-254; `traceback.format_exc()` ends with a newline, so a
missing URL yields the empty string); `errOk` models `response_error.ok`. -/
structure GTTSError where
  rspOk : Bool
  urlFound : Bool
  errOk : Bool
deriving DecidableEq

/-- Outcome of one `request.write_to_fp` attempt inside `_autoretry_request`:
either it returns (success) or it raises a `gTTSError`. -/
inductive AttemptOutcome where
  | ok : AttemptOutcome
  | err : GTTSError → AttemptOutcome
deriving DecidableEq

/-- The condition under which `_autoretry_request` raises the fatal
`RuntimeError` (tts.py lines 251-259): the response is not ok, no https URL was
found in the traceback, and `response_error.ok` is falsy. -/
def isPermanentFailure (e : GTTSError) : Bool :=
  !e.rspOk && !e.urlFound && !e.errOk

/-- Python's `round(q, 2)` on an exact rational: scale by 100, round half to
even (banker's rounding, the semantics of Python 3 `round`), scale back.
Computed on the numerator and denominator so that it evaluates by reduction:
`f` is the floor of `s`, and `twice` compares the fractional part of `s`
against one half (`frac < 1/2` iff `2 * (num - f * den) < den`). -/
def pyRound2 (q : ℚ) : ℚ :=
  let s := q * 100
  let f : ℤ := s.num.fdiv (s.den : ℤ)
  let twice : ℤ := 2 * (s.num - f * (s.den : ℤ))
  let n : ℤ :=
    if twice < (s.den : ℤ) then f
    else if (s.den : ℤ) < twice then f + 1
    else if f % 2 = 0 then f else f + 1
  (n : ℚ) / 100

/-- Result of running the retry loop of `_autoretry_request` against a finite
list of modelled attempt outcomes. `success waits t` and `fatal waits` record
the sleeps performed so far; `exhausted waits t` means every modelled attempt
failed transiently and the loop is still running with current timeout `t`
(the real loop is unbounded: it would simply keep retrying). -/
inductive RetryOutcome where
  | success : List ℚ → ℚ → RetryOutcome
  | fatal : List ℚ → RetryOutcome
  | exhausted : List ℚ → ℚ → RetryOutcome
deriving DecidableEq

/-- The retry loop of `_autoretry_request` (tts.py lines 244-266), one step per
modelled attempt: on success return; on a gTTSError either raise the fatal
RuntimeError (permanent failure) or sleep `timeout` seconds and retry with
`timeout = round(timeout * 2, 2)`. -/
def autoretryFrom : List AttemptOutcome → ℚ → List ℚ → RetryOutcome
  | [], t, ws => .exhausted ws t
  | .ok :: _, t, ws => .success ws t
  | .err e :: rest, t, ws =>
    if isPermanentFailure e then .fatal ws
    else autoretryFrom rest (pyRound2 (t * 2)) (ws ++ [t])

/-- Entry point `_autoretry_request` starts its retry loop with `timeout = 5`
(tts.py line 244). -/
def autoretryRequest (attempts : List AttemptOutcome) : RetryOutcome :=
  autoretryFrom attempts 5 []

/-- Python's `s.split("\n")` on a character list: splitting on a separator
character, keeping empty pieces, with `[[]]` for the empty input. -/
def pySplitChar (c : Char) : List Char → List (List Char)
  | [] => [[]]
  | x :: xs =>
    let rest := pySplitChar c xs
    if x = c then [] :: rest
    else (x :: rest.headI) :: rest.tail

/-- Model of `TextToSpeech._parse_words` (tts.py lines 290-292): keep exactly the words
with nonzero length (`if len(word)`). -/
def parse_words (words : List (List Char)) : List (List Char) :=
  words.filter (fun w => w.length != 0)

/-- Model of `TextToSpeech._parse_word_list` (tts.py lines 294-297): split the text on
newline and run `_parse_words` on the pieces. -/
def parse_word_list (text : List Char) : List (List Char) :=
  parse_words (pySplitChar '\n' text)

/-- Stated from the spec's words for comparison with `parse_word_list`: "split
on newline, drop empty lines after trimming" — a line is empty after trimming
exactly when all of its characters are whitespace. -/
def specNonBlankLines (text : List Char) : List (List Char) :=
  (pySplitChar '\n' text).filter (fun w => !(w.all Char.isWhitespace))

/-- Helper for Python extended slicing `l[start::step]`: `sliceEvery step k l`
takes the current element when the skip counter `k` is 0 (resetting it to
`step - 1`) and otherwise skips it, so `sliceEvery step 0 l` is every
`step`-th element of `l` starting at its head. -/
def sliceEvery (n : ℕ) : ℕ → List α → List α
  | _, [] => []
  | 0, x :: xs => x :: sliceEvery n (n - 1) xs
  | k + 1, _ :: xs => sliceEvery n k xs

/-- Python's `l[start::step]` (for `step ≥ 1`): the elements of `l` at indices
`start, start + step, start + 2 * step, ...`. -/
def pySlice (l : List α) (start step : ℕ) : List α :=
  sliceEvery step 0 (l.drop start)

/-- The word partition built by `run` (tts.py lines 124-126):
`[words[i :: n_threads] for i in range(n_threads)]`. -/
def splitWordList (words : List α) (n : ℕ) : List (List α) :=
  (List.range n).map (fun i => pySlice words i n)

/-- Python's `filename.endswith(pat)` on character lists. -/
def pyEndsWith (s pat : List Char) : Bool :=
  decide (pat <:+ s)

/-- Python's `filename.rsplit(ext, 1)[0]` for a filename that ends with `ext`
(tts.py line 96): the rightmost occurrence of `ext` is its final occurrence,
so the first piece is everything before that suffix. -/
def stemOf (ext f : List Char) : List Char :=
  f.take (f.length - ext.length)

/-- The existing-output snapshot built by `TextToSpeech.__init__` when
overwrite is disabled (tts.py lines 92-97): the stem of every listed filename
that ends with `"." + filetype`. -/
def existingFilesList (filetype : List Char) (listed : List (List Char)) : List (List Char) :=
  (listed.filter (fun f => pyEndsWith f ('.' :: filetype))).map
    (fun f => stemOf ('.' :: filetype) f)

/-- The error raised out of `TextToSpeech.__init__` when `os.listdir` is called
on a missing output directory (tts.py line 93): a `FileNotFoundError`. -/
inductive InitError where
  | dirNotFound
deriving DecidableEq

/-- The `_existing_files` computation of `TextToSpeech.__init__`
(tts.py lines 90-97). `dirListing` is `some files` when the configured output
directory exists with contents `files`, and `none` when it does not exist, in
which case `os.listdir` raises. With overwrite enabled no directory access is
performed and the snapshot is empty. -/
def ttsInitExisting (overwrite : Bool) (filetype : List Char)
    (dirListing : Option (List (List Char))) : Except InitError (List (List Char)) :=
  if overwrite then .ok []
  else
    match dirListing with
    | none => .error .dirNotFound
    | some files => .ok (existingFilesList filetype files)

/-- The filtering step of `run` (tts.py line 113):
`words = self._words.difference(self._existing_files)`. -/
def filterWords [DecidableEq α] (words existing : List α) : List α :=
  words.filter (fun w => !decide (w ∈ existing))

/-- Model of `TextToSpeechConfig` (tts.py lines 40-63); `max_per_second` is a float in
the source, modelled as ℚ. -/
structure TextToSpeechConfig where
  bitrate : String
  progress_bar : Bool
  output_dir : String
  filetype : String
  n_threads : ℕ
  max_per_second : ℚ
  language : String
  locale : String
deriving DecidableEq

/-- The dataclass defaults (tts.py lines 27-34 and 56-63). -/
def defaultTTSConfig : TextToSpeechConfig :=
  { bitrate := "16k"
    progress_bar := true
    output_dir := "output/"
    filetype := "mp3"
    n_threads := 4
    max_per_second := 5
    language := "en"
    locale := "com" }

instance : Inhabited TextToSpeechConfig := ⟨defaultTTSConfig⟩

/-- A heap of Python config objects: references are indices into the list.
Used to model the aliasing behaviour of `copy.copy` — every field of
`TextToSpeechConfig` is an immutable primitive, so a shallow copy yields a
fully independent object. -/
abbrev ConfigHeap := List TextToSpeechConfig

/-- Dereference a config object. -/
def readConfig (h : ConfigHeap) (r : ℕ) : TextToSpeechConfig :=
  h.getD r defaultTTSConfig

/-- Mutate the config object at reference `r` in place (what a caller editing
its config object after construction does). -/
def writeConfig (h : ConfigHeap) (r : ℕ) (v : TextToSpeechConfig) : ConfigHeap :=
  h.set r v

/-- Model of `copy.copy(config)`: allocate a fresh object holding the same field
values, returning the new heap and the fresh reference. -/
def copyConfig (h : ConfigHeap) (r : ℕ) : ConfigHeap × ℕ :=
  (h ++ [readConfig h r], h.length)

/-- Model of `self._config = copy.copy(config)` in `TextToSpeech.__init__`
(tts.py line 86): the instance stores a private copy of the caller's config. -/
def ttsInitConfig (h : ConfigHeap) (r : ℕ) : ConfigHeap × ℕ :=
  copyConfig h r

/-- The `config` property (tts.py lines 200-203): `return copy.copy(self._config)`. -/
def configProp (h : ConfigHeap) (r : ℕ) : ConfigHeap × ℕ :=
  copyConfig h r

/-- Model of `TextToSpeech.add_words` (tts.py lines 188-194): `self._words.update(words)`. -/
def add_words (ws : Finset (List Char)) (new : List (List Char)) : Finset (List Char) :=
  ws ∪ new.toFinset

/-- Model of `TextToSpeech.add_words_from_file` (tts.py lines 149-159). The filesystem
is the map `fs` from filenames to contents; `none` makes `open` raise
`FileNotFoundError`, which is caught: the failure is printed (the returned
Bool) and the word set is left untouched. -/
def add_words_from_file (fs : List Char → Option (List Char)) (filename : List Char)
    (ws : Finset (List Char)) : Finset (List Char) × Bool :=
  match fs filename with
  | some text => (add_words ws (parse_word_list text), false)
  | none => (ws, true)

/-- Model of `TextToSpeech.add_words_from_files` (tts.py lines 140-147): process each
filename in order with `add_words_from_file`. -/
def add_words_from_files (fs : List Char → Option (List Char))
    (filenames : List (List Char)) (ws : Finset (List Char)) : Finset (List Char) :=
  filenames.foldl (fun acc filename => (add_words_from_file fs filename acc).fst) ws

/-- One observable event of a worker running `_process_words`
(tts.py lines 268-283): a retry sleep inside `_autoretry_request`, a written
output file, or the per-word rate-limiting sleep `time.sleep(timeout)`. -/
inductive TraceEv (α : Type) where
  | retryWait : ℚ → TraceEv α
  | wrote : α → TraceEv α
  | wordSleep : ℚ → TraceEv α
deriving DecidableEq

/-- How a worker thread ends: its partition completed; it died because the
fatal RuntimeError was raised inside it; or (model artefact) the modelled
attempt list of some word ran out while still retrying — the real thread
would simply still be sleeping. -/
inductive WorkerStatus where
  | completed
  | raisedFatal
  | stuck
deriving DecidableEq

/-- Result of one worker thread running `_process_words` on its partition. -/
structure WorkerResult (α : Type) where
  written : List α
  status : WorkerStatus
  trace : List (TraceEv α)
deriving DecidableEq

/-- Model of `TextToSpeech._process_words` (tts.py lines 268-283): for each word in the
partition, run the retry client on the word's attempt outcomes (`synthOf`),
write the output file, then sleep `timeout` seconds. An exception escaping
`_autoretry_request` terminates the thread: the remaining words of the
partition are abandoned. -/
def processWords (synthOf : α → List AttemptOutcome) (timeout : ℚ) :
    List α → WorkerResult α
  | [] => { written := [], status := .completed, trace := [] }
  | w :: rest =>
    match autoretryRequest (synthOf w) with
    | .fatal waits =>
      { written := [], status := .raisedFatal, trace := waits.map TraceEv.retryWait }
    | .exhausted waits _ =>
      { written := [], status := .stuck, trace := waits.map TraceEv.retryWait }
    | .success waits _ =>
      let r := processWords synthOf timeout rest
      { written := w :: r.written
        status := r.status
        trace := waits.map TraceEv.retryWait ++
          TraceEv.wrote w :: TraceEv.wordSleep timeout :: r.trace }

/-- The one exception `run` itself raises (tts.py lines 109-110):
`ValueError("No words to process")` when the accumulated word set is empty. -/
inductive RunError where
  | noWords
deriving DecidableEq

/-- Observable outcome of a completed `run` call: the per-worker results (in
worker-index order) and the dispatcher's stagger sleeps, one
`time.sleep(1 / max_per_second)` per started worker (tts.py line 135). -/
structure RunOutcome (α : Type) where
  workers : List (WorkerResult α)
  staggerSleeps : List ℚ
deriving DecidableEq

/-- Model of `TextToSpeech.run` (tts.py lines 99-138). Raises ValueError iff the
pre-filter word set is empty; otherwise filters against the existing-output
snapshot, computes `thread_timeout = n_threads / max_per_second`, splits the
filtered words round-robin, and starts one daemon worker thread per partition,
sleeping `1 / max_per_second` after each start. `thread.join()` returns
normally even when the thread's target raised, so `run` returns `ok`
regardless of worker failures (the progress-bar thread, purely observational,
is not modelled). `words` stands for the set `self._words` in its (arbitrary)
Python set iteration order. -/
def runTTS [DecidableEq α] (nThreads : ℕ) (maxPerSec : ℚ)
    (synthOf : α → List AttemptOutcome) (words existing : List α) :
    Except RunError (RunOutcome α) :=
  if words.isEmpty then .error .noWords
  else
    let ws := filterWords words existing
    let threadTimeout := (nThreads : ℚ) / maxPerSec
    let parts := splitWordList ws nThreads
    .ok { workers := parts.map (fun part => processWords synthOf threadTimeout part)
          staggerSleeps := parts.map (fun _ => 1 / maxPerSec) }

/- ------------------------------------------------------------------ -/
/- Theorems.                                                          -/
/- ------------------------------------------------------------------ -/

lemma pyRound2_intCast (k : ℤ) : pyRound2 (k : ℚ) = (k : ℚ) := by
  have hs : ((k : ℚ) * 100) = ((k * 100 : ℤ) : ℚ) := by push_cast; ring
  simp only [pyRound2, hs, Rat.num_intCast, Rat.den_intCast, Nat.cast_one, Int.fdiv_one,
    mul_one, sub_self, mul_zero]
  norm_num

lemma pyRound2_five_pow (k : ℕ) : pyRound2 ((5 : ℚ) * 2 ^ k * 2) = 5 * 2 ^ (k + 1) := by
  have h1 : ((5 : ℚ) * 2 ^ k * 2) = (((5 * 2 ^ (k + 1) : ℕ) : ℤ) : ℚ) := by push_cast; ring
  rw [h1, pyRound2_intCast]
  push_cast
  ring

/-- Running the retry loop through a block of transient failures: starting from
timeout `5 * 2 ^ k`, each failure sleeps the current timeout and doubles it, so
after the block the loop continues on `tail` with timeout `5 * 2 ^ (k + len)`
having slept `5 * 2 ^ (k + i)` for each failure `i` in order. -/
lemma autoretryFrom_transient (tail : List AttemptOutcome) :
    ∀ errs : List GTTSError, (∀ e ∈ errs, isPermanentFailure e = false) →
    ∀ (k : ℕ) (acc : List ℚ),
    autoretryFrom (errs.map AttemptOutcome.err ++ tail) (5 * 2 ^ k) acc =
      autoretryFrom tail (5 * 2 ^ (k + errs.length))
        (acc ++ (List.range errs.length).map (fun i => (5 : ℚ) * 2 ^ (k + i))) := by
  intro errs
  induction errs with
  | nil => intro _ k acc; simp
  | cons e rest ih =>
    intro h k acc
    have he : isPermanentFailure e = false := h e (by simp)
    have hrest : ∀ e' ∈ rest, isPermanentFailure e' = false := fun e' he' => h e' (by simp [he'])
    have hexp : k + 1 + rest.length = k + (rest.length + 1) := by omega
    simp only [List.map_cons, List.cons_append, autoretryFrom, he, Bool.false_eq_true, if_false,
      List.append_eq]
    rw [pyRound2_five_pow, ih hrest (k + 1) (acc ++ [5 * 2 ^ k]), hexp]
    simp only [List.length_cons, List.range_succ_eq_map]
    have hfun : (fun i => (5 : ℚ) * 2 ^ (k + 1 + i)) =
        ((fun i => (5 : ℚ) * 2 ^ (k + i)) ∘ Nat.succ) := by
      funext i
      have hi : k + 1 + i = k + Nat.succ i := by omega
      simp [Function.comp, hi]
    rw [List.append_assoc, List.singleton_append, List.map_cons, List.map_map, Nat.add_zero, hfun]
    simp

/-- Claim C3: for every sequence of consecutive transient synthesis failures,
the retry client's waits are exactly 5, 10, 20, 40, ... seconds, i.e. the i-th
wait is `5 * 2 ^ i`: the timeout starts at 5 and doubles (uncapped, with
2-decimal rounding) after every failed attempt, and the loop never gives up on
transient failures — after any all-transient block it is still retrying
(`exhausted`), terminating only on a success or on a detected permanent
failure. -/
theorem backoff_doubling_schedule (errs : List GTTSError) (ep : GTTSError)
    (rest : List AttemptOutcome)
    (h : ∀ e ∈ errs, isPermanentFailure e = false)
    (hp : isPermanentFailure ep = true) :
    autoretryRequest (errs.map AttemptOutcome.err) =
      RetryOutcome.exhausted ((List.range errs.length).map (fun i => (5 : ℚ) * 2 ^ i))
        (5 * 2 ^ errs.length) ∧
    autoretryRequest (errs.map AttemptOutcome.err ++ AttemptOutcome.ok :: rest) =
      RetryOutcome.success ((List.range errs.length).map (fun i => (5 : ℚ) * 2 ^ i))
        (5 * 2 ^ errs.length) ∧
    autoretryRequest (errs.map AttemptOutcome.err ++ AttemptOutcome.err ep :: rest) =
      RetryOutcome.fatal ((List.range errs.length).map (fun i => (5 : ℚ) * 2 ^ i)) := by
  have h50 : (5 : ℚ) * 2 ^ (0 : ℕ) = 5 := by norm_num
  refine ⟨?_, ?_, ?_⟩
  · have key := autoretryFrom_transient [] errs h 0 []
    rw [h50] at key
    simp only [zero_add, List.nil_append] at key
    rw [autoretryRequest, ← List.append_nil (errs.map AttemptOutcome.err), key]
    simp [autoretryFrom]
  · have key := autoretryFrom_transient (AttemptOutcome.ok :: rest) errs h 0 []
    rw [h50] at key
    simp only [zero_add, List.nil_append] at key
    rw [autoretryRequest, key]
    simp [autoretryFrom]
  · have key := autoretryFrom_transient (AttemptOutcome.err ep :: rest) errs h 0 []
    rw [h50] at key
    simp only [zero_add, List.nil_append] at key
    rw [autoretryRequest, key]
    simp [autoretryFrom, hp]

/-- Witness for claim C3: two concrete transient failures (one with a
non-error response, one with a reauthentication URL in the traceback) leave
the loop still retrying with waits 5 and 10 and next timeout 20. -/
theorem backoff_doubling_schedule_witness :
    isPermanentFailure ⟨true, false, false⟩ = false ∧
    isPermanentFailure ⟨false, true, false⟩ = false ∧
    isPermanentFailure ⟨false, false, false⟩ = true ∧
    autoretryRequest ([⟨true, false, false⟩, ⟨false, true, false⟩].map AttemptOutcome.err) =
      RetryOutcome.exhausted ((List.range 2).map (fun i => (5 : ℚ) * 2 ^ i)) (5 * 2 ^ 2) := by
  refine ⟨by decide, by decide, by decide, ?_⟩
  exact (backoff_doubling_schedule [⟨true, false, false⟩, ⟨false, true, false⟩]
    ⟨false, false, false⟩ [] (by decide) (by decide)).1

lemma sliceEvery_eq_drop (n : ℕ) :
    ∀ (xs : List α) (k : ℕ), sliceEvery n k xs = sliceEvery n 0 (xs.drop k) := by
  intro xs
  induction xs with
  | nil => intro k; simp [sliceEvery]
  | cons x xs ih =>
    intro k
    cases k with
    | zero => simp
    | succ k => simpa [sliceEvery] using ih k

lemma pySlice_nil (i n : ℕ) : pySlice ([] : List α) i n = [] := by
  simp [pySlice, sliceEvery]

lemma pySlice_cons_succ (x : α) (xs : List α) (i n : ℕ) :
    pySlice (x :: xs) (i + 1) n = pySlice xs i n := by
  simp [pySlice]

lemma pySlice_cons_zero (x : α) (xs : List α) (m : ℕ) :
    pySlice (x :: xs) 0 (m + 1) = x :: pySlice xs m (m + 1) := by
  show sliceEvery (m + 1) 0 (x :: xs) = x :: sliceEvery (m + 1) 0 (xs.drop m)
  rw [← sliceEvery_eq_drop]
  simp [sliceEvery]

/-- Summed over all `n` round-robin slices, each element of `l` is counted
exactly as often as in `l` itself: no word is lost or duplicated by the
partition. -/
lemma sum_count_pySlice [DecidableEq α] (v : α) (m : ℕ) :
    ∀ l : List α, (∑ i in Finset.range (m + 1), (pySlice l i (m + 1)).count v) = l.count v := by
  intro l
  induction l with
  | nil => simp [pySlice_nil]
  | cons x xs ih =>
    rw [Finset.sum_range_succ']
    simp only [pySlice_cons_succ, pySlice_cons_zero, List.count_cons]
    have hsum : (∑ i in Finset.range m, (pySlice xs i (m + 1)).count v) +
        (pySlice xs m (m + 1)).count v = xs.count v := by
      rw [← Finset.sum_range_succ]
      exact ih
    omega

lemma sliceEvery_length (m : ℕ) :
    ∀ (l : List α) (k : ℕ), (sliceEvery (m + 1) k l).length = ((l.length - k) + m) / (m + 1) := by
  intro l
  induction l with
  | nil =>
    intro k
    have h0 : (0 - k + m) = m := by omega
    simp [sliceEvery, h0, Nat.div_eq_of_lt (Nat.lt_succ_self m)]
  | cons x xs ih =>
    intro k
    cases k with
    | zero =>
      have heq : sliceEvery (m + 1) 0 (x :: xs) = x :: sliceEvery (m + 1) m xs := by
        simp [sliceEvery]
      rw [heq, List.length_cons, ih m]
      rcases le_or_lt m xs.length with hm | hm
      · rw [Nat.sub_add_cancel hm]
        have h3 : (x :: xs).length - 0 + m = xs.length + (m + 1) := by simp; omega
        rw [h3, Nat.add_div_right _ (Nat.succ_pos m)]
      · have h1 : xs.length - m = 0 := by omega
        have h2 : m / (m + 1) = 0 := Nat.div_eq_of_lt (by omega)
        have h3 : (x :: xs).length - 0 + m = xs.length + (m + 1) := by simp; omega
        have h4 : xs.length / (m + 1) = 0 := Nat.div_eq_of_lt (by omega)
        rw [h1, Nat.zero_add, h2, h3, Nat.add_div_right _ (Nat.succ_pos m), h4]
    | succ k =>
      have heq : sliceEvery (m + 1) (k + 1) (x :: xs) = sliceEvery (m + 1) k xs := by
        simp [sliceEvery]
      have h1 : (x :: xs).length - (k + 1) = xs.length - k := by simp
      rw [heq, ih k, h1]

lemma pySlice_length (l : List α) (i m : ℕ) :
    (pySlice l i (m + 1)).length = ((l.length - i) + m) / (m + 1) := by
  show (sliceEvery (m + 1) 0 (l.drop i)).length = _
  rw [sliceEvery_length m (l.drop i) 0]
  simp

lemma splitWordList_getD (l : List α) (n k : ℕ) (hk : k < n) :
    (splitWordList l n).getD k [] = pySlice l k n := by
  simp [splitWordList, List.getD, List.getElem?_map, List.getElem?_range hk]

/-- Claim C4: for every input word list and every worker count `n ≥ 1`, the
round-robin partition `splitWordList` preserves the total multiplicity of every
value (each word lands in exactly one partition), and any two partitions differ
in length by at most 1. -/
theorem round_robin_partition [DecidableEq α] (l : List α) (n : ℕ) (v : α)
    (i j : ℕ) (hn : 1 ≤ n) (hi : i < n) (hj : j < n) :
    (∑ k in Finset.range n, ((splitWordList l n).getD k []).count v) = l.count v ∧
    ((splitWordList l n).getD i []).length ≤ ((splitWordList l n).getD j []).length + 1 := by
  obtain ⟨m, rfl⟩ : ∃ m, n = m + 1 := ⟨n - 1, by omega⟩
  constructor
  · rw [Finset.sum_congr rfl
      (fun k hk => by rw [splitWordList_getD l (m + 1) k (Finset.mem_range.mp hk)])]
    exact sum_count_pySlice v m l
  · rw [splitWordList_getD l (m + 1) i hi, splitWordList_getD l (m + 1) j hj,
      pySlice_length, pySlice_length]
    have h1 : (l.length - i) + m ≤ ((l.length - j) + m) + (m + 1) := by omega
    calc ((l.length - i) + m) / (m + 1)
        ≤ (((l.length - j) + m) + (m + 1)) / (m + 1) := Nat.div_le_div_right h1
      _ = ((l.length - j) + m) / (m + 1) + 1 := Nat.add_div_right _ (Nat.succ_pos m)

/-- Witness for claim C4: five words split over two workers preserve counts and
give partitions of sizes 3 and 2. -/
theorem round_robin_partition_witness :
    1 ≤ 2 ∧ 0 < 2 ∧ 1 < 2 ∧
    ((∑ k in Finset.range 2, ((splitWordList [10, 11, 12, 13, 14] 2).getD k []).count 12) =
        [10, 11, 12, 13, 14].count 12 ∧
      ((splitWordList [10, 11, 12, 13, 14] 2).getD 0 []).length ≤
        ((splitWordList [10, 11, 12, 13, 14] 2).getD 1 []).length + 1) :=
  ⟨by decide, by decide, by decide,
    round_robin_partition [10, 11, 12, 13, 14] 2 12 0 1 (by decide) (by decide) (by decide)⟩

/-- Membership in the existing-output snapshot: a word is a recorded stem
exactly when the word followed by `"." + filetype` is one of the listed
filenames. -/
lemma mem_existingFilesList (ft : List Char) (listed : List (List Char)) (w : List Char) :
    w ∈ existingFilesList ft listed ↔ (w ++ '.' :: ft) ∈ listed := by
  constructor
  · intro hw
    rcases List.mem_map.mp hw with ⟨f, hf, rfl⟩
    rcases List.mem_filter.mp hf with ⟨hfl, hsuf⟩
    rcases of_decide_eq_true hsuf with ⟨p, rfl⟩
    have hlen : (p ++ '.' :: ft).length - ('.' :: ft).length = p.length := by
      simp [List.length_append]
    have hst : stemOf ('.' :: ft) (p ++ '.' :: ft) = p := by
      simp only [stemOf, hlen]
      exact List.take_left p ('.' :: ft)
    rw [hst]
    exact hfl
  · intro hw
    refine List.mem_map.mpr ⟨w ++ '.' :: ft, List.mem_filter.mpr ⟨hw, decide_eq_true ⟨w, rfl⟩⟩, ?_⟩
    have hlen : (w ++ '.' :: ft).length - ('.' :: ft).length = w.length := by
      simp [List.length_append]
    simp only [stemOf, hlen]
    exact List.take_left w ('.' :: ft)

/-- Claim C5: with overwrite disabled, the word set dispatched by `run`
excludes exactly the words whose filename (word plus the configured extension)
exists in the startup directory listing; concretely, with `"hello.mp3"`
present, the words `hello` and `world` are filtered to just `world`. With
overwrite enabled the snapshot is empty, so no word is ever filtered out. -/
theorem overwrite_filtering :
    (∀ (words listed : List (List Char)) (ft w : List Char),
        w ∈ filterWords words (existingFilesList ft listed) ↔
          w ∈ words ∧ (w ++ '.' :: ft) ∉ listed) ∧
    (∀ (words : List (List Char)) (ft : List Char) (dl : Option (List (List Char))),
        ttsInitExisting true ft dl = Except.ok [] ∧
          filterWords words ([] : List (List Char)) = words) ∧
    filterWords ["hello".toList, "world".toList]
        (existingFilesList "mp3".toList ["hello.mp3".toList]) = ["world".toList] := by
  refine ⟨?_, ?_, ?_⟩
  · intro words listed ft w
    simp [filterWords, List.mem_filter, mem_existingFilesList]
  · intro words ft dl
    exact ⟨rfl, by simp [filterWords]⟩
  · decide

/-- Claim C10: constructing the generator with overwrite disabled requires the
output directory to exist — a missing directory makes the `os.listdir` call in
the constructor raise — while with overwrite enabled the constructor performs
no directory access and succeeds for every directory state. -/
theorem init_requires_output_dir :
    (∀ ft : List Char, ttsInitExisting false ft none = Except.error InitError.dirNotFound) ∧
    (∀ (ft : List Char) (dl : Option (List (List Char))),
        ttsInitExisting true ft dl = Except.ok []) :=
  ⟨fun _ => rfl, fun _ _ => rfl⟩

/-- Counterexample to claim C6 as stated: the parser does not drop lines that
are merely blank after trimming. On `"cat\n \ndog"` the whitespace-only line
`" "` survives parsing, so the parsed words are not exactly the non-blank
lines. -/
theorem parse_keeps_whitespace_only_line :
    parse_word_list ("cat\n \ndog".toList) ≠ specNonBlankLines ("cat\n \ndog".toList) ∧
    parse_word_list ("cat\n \ndog".toList) = ["cat".toList, " ".toList, "dog".toList] ∧
    specNonBlankLines ("cat\n \ndog".toList) = ["cat".toList, "dog".toList] :=
  ⟨by decide, by decide, by decide⟩

/-- Claim C6 (amended): parsing splits on newline and drops exactly the lines
that are empty strings — no trimming is performed — so the resulting words are
exactly the nonempty lines; in particular `"cat\n\ndog\n"` parses to
cat and dog. -/
theorem parse_drops_exactly_empty_lines :
    (∀ (text w : List Char),
        w ∈ parse_word_list text ↔ w ∈ pySplitChar '\n' text ∧ w ≠ []) ∧
    parse_word_list ("cat\n\ndog\n".toList) = ["cat".toList, "dog".toList] := by
  constructor
  · intro text w
    simp [parse_word_list, parse_words, List.mem_filter, List.length_eq_zero]
  · decide

/-- Claim C7: adding words from a missing local file is non-fatal and atomic —
the failure is reported (`true`), the accumulated word set is unchanged, and
removing the missing filename from a batch does not change the words collected
from the other sources. -/
theorem missing_file_is_skipped (fs : List Char → Option (List Char)) (filename : List Char)
    (ws : Finset (List Char)) (names₁ names₂ : List (List Char))
    (h : fs filename = none) :
    add_words_from_file fs filename ws = (ws, true) ∧
    add_words_from_files fs (names₁ ++ filename :: names₂) ws =
      add_words_from_files fs (names₁ ++ names₂) ws := by
  constructor
  · simp [add_words_from_file, h]
  · induction names₁ generalizing ws with
    | nil => simp [add_words_from_files, add_words_from_file, h]
    | cons nm rest ih =>
      simpa [add_words_from_files] using ih ((add_words_from_file fs nm ws).fst)

/-- Witness for claim C7: a filesystem with no files at all reports the
missing file and leaves the empty word set unchanged. -/
theorem missing_file_is_skipped_witness :
    ((fun _ : List Char => (none : Option (List Char))) "a".toList = none) ∧
    (add_words_from_file (fun _ => none) "a".toList ∅ = (∅, true) ∧
      add_words_from_files (fun _ => none) ([] ++ "a".toList :: []) ∅ =
        add_words_from_files (fun _ => none) ([] ++ []) ∅) :=
  ⟨rfl, missing_file_is_skipped (fun _ => none) "a".toList ∅ [] [] rfl⟩

lemma readConfig_set_ne (h : ConfigHeap) (r s : ℕ) (v : TextToSpeechConfig) (hne : r ≠ s) :
    readConfig (writeConfig h r v) s = readConfig h s := by
  simp [readConfig, writeConfig, List.getD, List.getElem?_set_ne hne]

lemma readConfig_append_len (h : ConfigHeap) (c : TextToSpeechConfig) :
    readConfig (h ++ [c]) h.length = c := by
  simp [readConfig, List.getD, List.getElem?_append_right (le_refl h.length)]

lemma readConfig_append_lt (h : ConfigHeap) (tail : ConfigHeap) (s : ℕ) (hs : s < h.length) :
    readConfig (h ++ tail) s = readConfig h s := by
  simp [readConfig, List.getD, List.getElem?_append_left hs]

/-- Claim C8: the configuration is an immutable snapshot taken at
construction. `ttsInitConfig` copies the caller's config object, so the
instance reads the construction-time value; mutating the caller's object
afterwards does not change what the instance reads; and the `config` property
returns a fresh copy whose mutation also leaves the instance unaffected. -/
theorem config_snapshot_immutable (h : ConfigHeap) (r : ℕ) (v w : TextToSpeechConfig)
    (hr : r < h.length) :
    readConfig (ttsInitConfig h r).1 (ttsInitConfig h r).2 = readConfig h r ∧
    readConfig (writeConfig (ttsInitConfig h r).1 r v) (ttsInitConfig h r).2 = readConfig h r ∧
    readConfig
        (writeConfig (configProp (ttsInitConfig h r).1 (ttsInitConfig h r).2).1
          (configProp (ttsInitConfig h r).1 (ttsInitConfig h r).2).2 w)
        (ttsInitConfig h r).2 = readConfig h r := by
  have h1 : (ttsInitConfig h r).1 = h ++ [readConfig h r] := rfl
  have h2 : (ttsInitConfig h r).2 = h.length := rfl
  have hread : readConfig (h ++ [readConfig h r]) h.length = readConfig h r :=
    readConfig_append_len h (readConfig h r)
  refine ⟨by rw [h1, h2, hread], ?_, ?_⟩
  · rw [h1, h2, readConfig_set_ne _ _ _ _ (by omega)]
    exact hread
  · rw [h1, h2]
    have h3 : (configProp (h ++ [readConfig h r]) h.length).1 =
        (h ++ [readConfig h r]) ++ [readConfig (h ++ [readConfig h r]) h.length] := rfl
    have h4 : (configProp (h ++ [readConfig h r]) h.length).2 =
        (h ++ [readConfig h r]).length := rfl
    rw [h3, h4, readConfig_set_ne _ _ _ _ (by simp), readConfig_append_lt _ _ _ (by simp)]
    exact hread

/-- Witness for claim C8: a one-object heap; mutating the caller's reference
and the property-returned copy leaves the instance's snapshot intact. -/
theorem config_snapshot_immutable_witness :
    0 < ([defaultTTSConfig] : ConfigHeap).length ∧
    (readConfig (ttsInitConfig [defaultTTSConfig] 0).1 (ttsInitConfig [defaultTTSConfig] 0).2 =
        readConfig [defaultTTSConfig] 0 ∧
      readConfig (writeConfig (ttsInitConfig [defaultTTSConfig] 0).1 0 defaultTTSConfig)
          (ttsInitConfig [defaultTTSConfig] 0).2 = readConfig [defaultTTSConfig] 0 ∧
      readConfig
          (writeConfig
            (configProp (ttsInitConfig [defaultTTSConfig] 0).1
              (ttsInitConfig [defaultTTSConfig] 0).2).1
            (configProp (ttsInitConfig [defaultTTSConfig] 0).1
              (ttsInitConfig [defaultTTSConfig] 0).2).2 defaultTTSConfig)
          (ttsInitConfig [defaultTTSConfig] 0).2 = readConfig [defaultTTSConfig] 0) :=
  ⟨by decide,
    config_snapshot_immutable [defaultTTSConfig] 0 defaultTTSConfig defaultTTSConfig (by decide)⟩

lemma splitWordList_nil (n : ℕ) : splitWordList ([] : List α) n = List.replicate n [] := by
  simp [splitWordList, pySlice_nil, List.map_const']

/-- Claim C2 (amended): the empty-input signal (the `ValueError` reported at
top level) fires only when the pre-filter word set is empty. When every word
is removed by the existing-output filter, `run` does not signal: it dispatches
`n_threads` workers, each with an empty partition, and writes zero output
files. -/
theorem run_empty_after_filter [DecidableEq α] (nThreads : ℕ) (maxPerSec : ℚ)
    (synthOf : α → List AttemptOutcome) (words existing : List α)
    (hf : filterWords words existing = []) :
    runTTS nThreads maxPerSec synthOf words existing =
      if words.isEmpty then Except.error RunError.noWords
      else Except.ok
        { workers := List.replicate nThreads
            { written := [], status := WorkerStatus.completed, trace := [] }
          staggerSleeps := List.replicate nThreads (1 / maxPerSec) } := by
  cases he : words.isEmpty with
  | true => simp [runTTS, he]
  | false =>
    simp only [runTTS, he, Bool.false_eq_true, if_false]
    rw [hf, splitWordList_nil]
    simp [List.map_replicate, processWords]

/-- Counterexample to claim C2 as stated: a word set that is nonempty before
filtering but empty after it does not signal the empty-input condition — `run`
returns normally (`some`, not the `ValueError`) and dispatches 4 workers, not
zero (each worker's partition is empty, so zero files are written). -/
theorem postfilter_empty_still_dispatches :
    filterWords ["hello"] ["hello"] = ([] : List String) ∧
    (runTTS 4 5 (fun _ : String => [AttemptOutcome.ok]) ["hello"] ["hello"]).toOption.map
        (fun r => (r.workers.length, r.workers.map WorkerResult.written)) =
      some (4, [[], [], [], []]) :=
  ⟨by decide, by decide⟩

/-- Witness for claim C2 (amended form): the word `hello` filtered out by the
existing file `hello` leaves the filtered set empty, and `run` dispatches two
no-op workers instead of signalling. -/
theorem run_empty_after_filter_witness :
    filterWords ["hello"] ["hello"] = ([] : List String) ∧
    runTTS 2 5 (fun _ : String => []) ["hello"] ["hello"] =
      (if (["hello"] : List String).isEmpty then Except.error RunError.noWords
       else Except.ok
        { workers := List.replicate 2
            { written := [], status := WorkerStatus.completed, trace := [] }
          staggerSleeps := List.replicate 2 ((1 : ℚ) / 5) }) :=
  ⟨by decide, run_empty_after_filter 2 5 (fun _ => []) ["hello"] ["hello"] (by decide)⟩

/-- Claim C1 evaluated at the failing input (the code-level behaviour): the
single word `boom` fails permanently on its first attempt — the retry client
raises the fatal RuntimeError inside the worker thread — yet `run` returns
normally (`some`, no error escapes it): `thread.join()` swallows the worker's
exception, the failed worker dies having written nothing, and the sibling
workers complete. The whole run is not aborted. -/
theorem permanent_failure_not_propagated :
    isPermanentFailure ⟨false, false, false⟩ = true ∧
    (runTTS 4 5 (fun _ : String => [AttemptOutcome.err ⟨false, false, false⟩])
        ["boom"] []).toOption.map
        (fun r => r.workers.map (fun wr => (wr.written, wr.status))) =
      some [([], WorkerStatus.raisedFatal), ([], WorkerStatus.completed),
        ([], WorkerStatus.completed), ([], WorkerStatus.completed)] :=
  ⟨by decide, by decide⟩

/-- Every per-word rate-limiting sleep recorded by `_process_words` equals the
`timeout` argument the worker was started with. -/
lemma wordSleep_eq_timeout (synthOf : α → List AttemptOutcome) (t : ℚ) :
    ∀ (ws : List α) (d : ℚ), TraceEv.wordSleep d ∈ (processWords synthOf t ws).trace → d = t := by
  intro ws
  induction ws with
  | nil => intro d hd; simp [processWords] at hd
  | cons w rest ih =>
    intro d hd
    cases hm : autoretryRequest (synthOf w) with
    | success waits tn =>
      simp only [processWords, hm] at hd
      simp only [List.mem_append, List.mem_map, List.mem_cons] at hd
      rcases hd with ⟨x, _, hx⟩ | hd | hd | hd
      · exact absurd hx (by simp)
      · exact absurd hd (by simp)
      · exact (TraceEv.wordSleep.injEq _ _).mp hd
      · exact ih d hd
    | fatal waits => simp [processWords, hm] at hd
    | exhausted waits tn => simp [processWords, hm] at hd

/-- Claim C9: in any completed `run`, every delay a worker sleeps between
processing successive words equals `n_threads / max_per_second`, and every
stagger delay the dispatcher sleeps between starting successive workers equals
`1 / max_per_second`. -/
theorem dispatch_sleep_intervals [DecidableEq α] (nThreads : ℕ) (maxPerSec : ℚ)
    (synthOf : α → List AttemptOutcome) (words existing : List α) (r : RunOutcome α)
    (wr : WorkerResult α) (d ds : ℚ)
    (h : runTTS nThreads maxPerSec synthOf words existing = Except.ok r)
    (hw : wr ∈ r.workers) (hd : TraceEv.wordSleep d ∈ wr.trace) (hs : ds ∈ r.staggerSleeps) :
    d = (nThreads : ℚ) / maxPerSec ∧ ds = 1 / maxPerSec := by
  cases he : words.isEmpty with
  | true => simp [runTTS, he] at h
  | false =>
    simp only [runTTS, he, Bool.false_eq_true, if_false, Except.ok.injEq] at h
    subst h
    constructor
    · rcases List.mem_map.mp hw with ⟨part, _, rfl⟩
      exact wordSleep_eq_timeout synthOf _ part d hd
    · rcases List.mem_map.mp hs with ⟨p, _, hds⟩
      exact hds.symm

/-- Witness for claim C9: two words over two workers at 5 requests per second
give per-word sleeps of 2/5 seconds and stagger sleeps of 1/5 seconds. -/
theorem dispatch_sleep_intervals_witness :
    runTTS 2 5 (fun _ : String => [AttemptOutcome.ok]) ["a", "b"] [] = Except.ok
      { workers :=
          [⟨["a"], WorkerStatus.completed,
            [TraceEv.wrote "a", TraceEv.wordSleep ((2 : ℚ) / 5)]⟩,
          ⟨["b"], WorkerStatus.completed,
            [TraceEv.wrote "b", TraceEv.wordSleep ((2 : ℚ) / 5)]⟩]
        staggerSleeps := [(1 : ℚ) / 5, (1 : ℚ) / 5] } ∧
    (⟨["a"], WorkerStatus.completed, [TraceEv.wrote "a", TraceEv.wordSleep ((2 : ℚ) / 5)]⟩ :
        WorkerResult String) ∈
      [(⟨["a"], WorkerStatus.completed,
          [TraceEv.wrote "a", TraceEv.wordSleep ((2 : ℚ) / 5)]⟩ : WorkerResult String),
        ⟨["b"], WorkerStatus.completed, [TraceEv.wrote "b", TraceEv.wordSleep ((2 : ℚ) / 5)]⟩] ∧
    TraceEv.wordSleep ((2 : ℚ) / 5) ∈
      [TraceEv.wrote "a", (TraceEv.wordSleep ((2 : ℚ) / 5) : TraceEv String)] ∧
    ((1 : ℚ) / 5) ∈ [(1 : ℚ) / 5, (1 : ℚ) / 5] ∧
    ((2 : ℚ) / 5 = ((2 : ℕ) : ℚ) / 5 ∧ (1 : ℚ) / 5 = 1 / 5) := by
  have hrun : runTTS 2 5 (fun _ : String => [AttemptOutcome.ok]) ["a", "b"] [] = Except.ok
      { workers :=
          [⟨["a"], WorkerStatus.completed,
            [TraceEv.wrote "a", TraceEv.wordSleep ((2 : ℚ) / 5)]⟩,
          ⟨["b"], WorkerStatus.completed,
            [TraceEv.wrote "b", TraceEv.wordSleep ((2 : ℚ) / 5)]⟩]
        staggerSleeps := [(1 : ℚ) / 5, (1 : ℚ) / 5] } := by
    simp only [runTTS]
    norm_num [filterWords, splitWordList, List.range_succ, pySlice, sliceEvery, processWords,
      autoretryRequest, autoretryFrom]
  have hw : (⟨["a"], WorkerStatus.completed,
      [TraceEv.wrote "a", TraceEv.wordSleep ((2 : ℚ) / 5)]⟩ : WorkerResult String) ∈
      [(⟨["a"], WorkerStatus.completed,
          [TraceEv.wrote "a", TraceEv.wordSleep ((2 : ℚ) / 5)]⟩ : WorkerResult String),
        ⟨["b"], WorkerStatus.completed, [TraceEv.wrote "b", TraceEv.wordSleep ((2 : ℚ) / 5)]⟩] :=
    List.mem_cons_self _ _
  have hd : TraceEv.wordSleep ((2 : ℚ) / 5) ∈
      [TraceEv.wrote "a", (TraceEv.wordSleep ((2 : ℚ) / 5) : TraceEv String)] :=
    List.mem_cons_of_mem _ (List.mem_cons_self _ _)
  have hs : ((1 : ℚ) / 5) ∈ [(1 : ℚ) / 5, (1 : ℚ) / 5] := List.mem_cons_self _ _
  exact ⟨hrun, hw, hd, hs,
    dispatch_sleep_intervals 2 5 (fun _ : String => [AttemptOutcome.ok]) ["a", "b"] [] _ _ _ _
      hrun hw hd hs⟩

end TTSModel
